import Mathlib

/-!
# Verification of the chor-game server (Chor–Dakat–Babu–Police)

Shallow embedding of the two server variants of the repository:

* `ServerA` embeds `src/server.js` (parity variant: role points 900/800/400/600,
  odd rounds target the Chor, even rounds the Dakat, explicit shuffle events,
  `awaitingShuffle` flag).
* `ServerB` embeds `src/server/index.js` (simple variant: role points
  1000/500/300/0, the Police always guesses the Chor, rounds are chained by
  `setTimeout` cooldown timers, wrong guesses transfer 500 points to the
  guessed player).

Both variants shuffle the role array with `roles.sort(() => Math.random() - 0.5)`
(respectively `0.5 - Math.random()`).  The comparator's sign is a fair coin and
the engine's small-array sort is an insertion sort, so the shuffle is modelled
as an insertion sort driven by an explicit stream of comparator outcomes
(`List Bool`); sorting four elements consumes at most six outcomes.

JavaScript objects keyed by socket id are modelled as association lists
(`List (Nat × player)`), which keeps every operation executable and keeps
`Object.keys` insertion order.  `setTimeout` callbacks are modelled by pending
counters in the state plus explicit timer-fire events, since the code never
calls `clearTimeout`.
-/

set_option maxRecDepth 10000

namespace ChorGame

/-- Socket ids are opaque; we model them as naturals. -/
abbrev Sid := Nat

/-! ## The comparator-driven sort used by `array.sort(() => random() - 0.5)`

`insertCmp x l bs` inserts `x` into `l`, consuming one comparator outcome per
comparison: `true` means the comparator placed `x` before the inspected
element, `false` means after.  An exhausted stream defaults to `false`; the
counting theorems only use streams long enough that the default is never hit. -/

def insertCmp (x : α) : List α → List Bool → List α × List Bool
  | [], bs => ([x], bs)
  | y :: ys, [] =>
    match insertCmp x ys [] with
    | (zs, bs'') => (y :: zs, bs'')
  | y :: ys, b :: bs =>
    if b then (x :: y :: ys, bs)
    else
      match insertCmp x ys bs with
      | (zs, bs'') => (y :: zs, bs'')

/-- Insertion sort of a list under an explicit stream of comparator outcomes:
the model of `array.sort(cmp)` with an inconsistent random comparator on the
four-element role arrays of `assignRoles`. -/
def sortCmp : List α → List Bool → List α × List Bool
  | [], bs => ([], bs)
  | x :: xs, bs =>
    match sortCmp xs bs with
    | (s, bs') => insertCmp x s bs'

/-! ## Counting comparator streams (for the uniformity claim)

All `2 ^ 6` streams of six fair-coin comparator outcomes are equiprobable and
six outcomes are enough to sort four elements, so the probability that the
shuffle produces a given permutation is `streamCount p / 64`. -/

/-- All boolean streams of length `n`. -/
def allStreams : Nat → List (List Bool)
  | 0 => [[]]
  | n + 1 => (allStreams n).map (List.cons true) ++ (allStreams n).map (List.cons false)

/-- Number of length-6 comparator streams under which the random-comparator
shuffle of `l` produces exactly `p`. -/
def streamCount (l p : List String) : Nat :=
  ((allStreams 6).filter (fun bs => (sortCmp l bs).1 == p)).length

/-- Model of JavaScript `String.prototype.trim`: strip whitespace from both
ends (written on the character list so that it evaluates inside the kernel). -/
def trimJS (s : String) : String :=
  String.mk (((s.data.dropWhile Char.isWhitespace).reverse.dropWhile Char.isWhitespace).reverse)

/-! ## Association-list registry (model of the JS `players` object) -/

/-- `players[i]` lookup. -/
def getP : List (Sid × α) → Sid → Option α
  | [], _ => none
  | (j, p) :: rest, i => if j = i then some p else getP rest i

/-- In-place mutation `players[i] = f players[i]` (no-op on an absent key,
matching the fact that the server only mutates registered sockets). -/
def setP : List (Sid × α) → Sid → (α → α) → List (Sid × α)
  | [], _, _ => []
  | (j, p) :: rest, i, f =>
    (j, if j = i then f p else p) :: setP rest i f

/-- `delete players[i]`. -/
def delP : List (Sid × α) → Sid → List (Sid × α)
  | [], _ => []
  | (j, p) :: rest, i =>
    if j = i then delP rest i else (j, p) :: delP rest i

/-- Registration `players[i] = p` for a fresh socket id (JS object insertion
order appends new keys). -/
def addP (ps : List (Sid × α)) (i : Sid) (p : α) : List (Sid × α) :=
  ps ++ [(i, p)]

/-- Mutation of every value, e.g. `Object.values(players).forEach(...)`. -/
def mapP : List (Sid × α) → (α → α) → List (Sid × α)
  | [], _ => []
  | (j, p) :: rest, f => (j, f p) :: mapP rest f

/-! ## ServerA: embedding of `src/server.js` (parity variant) -/

namespace ServerA

/-- One entry of the `players` registry of `src/server.js`: the code stores
`{ id, name: '', score: 0, role: '', pending: 0 }` per socket; the cleared
role is the empty string. -/
structure Player where
  name : String
  score : Int
  role : String
  pending : Int
deriving Repr, DecidableEq

/-- One entry of the `history` array:
`{ round, message, gains: [{ id, name, points }], correct }` (names dropped,
ids kept). -/
structure HistEntry where
  round : Nat
  message : String
  gains : List (Sid × Int)
  correct : Bool
deriving Repr, DecidableEq

/-- Outbound socket notifications of `src/server.js`, reduced to the payload
fields the specification talks about. -/
inductive Emit where
  | updatePlayers (names : List String)
  | rolesAssigned (round : Nat)
  | policeTurn (guessTarget : String) (suspects : List Sid)
  | roundResult (round : Nat) (correct : Bool) (message : String)
  | gameOver (winners : List String)
  | enableShuffle
  | playerLeft (message : String)
  | gameReset
deriving Repr, DecidableEq

/-- The module-level mutable state of `src/server.js`, plus a log of emitted
notifications. -/
structure GState where
  players : List (Sid × Player)
  waiting : List Sid
  currentPlayers : List Sid
  gameStarted : Bool
  awaitingShuffle : Bool
  currentRound : Nat
  history : List HistEntry
  emitted : List Emit
deriving Repr, DecidableEq

def MAX_ROUNDS : Nat := 10

/-- The `rolePoints` table (`Babu: 900, Police: 800, Chor: 400, Dakat: 600`);
any other key would be `undefined` in JS and is mapped to 0 (never reached on
the four role names). -/
def rolePoints (r : String) : Int :=
  if r = "Babu" then 900
  else if r = "Police" then 800
  else if r = "Chor" then 400
  else if r = "Dakat" then 600
  else 0

/-- `players[i].role === r` (false for an unregistered id; the server only
evaluates this for registered current players). -/
def roleIs (ps : List (Sid × Player)) (i : Sid) (r : String) : Bool :=
  match getP ps i with
  | some p => p.role == r
  | none => false

/-- `players[i].name`, with `""` for an unregistered id. -/
def nameOr (ps : List (Sid × Player)) (i : Sid) : String :=
  match getP ps i with
  | some p => p.name
  | none => ""

/-- `players[i].score`, with `0` for an unregistered id. -/
def scoreOr (ps : List (Sid × Player)) (i : Sid) : Int :=
  match getP ps i with
  | some p => p.score
  | none => 0

/-- `waiting.map(id => players[id].name).filter(Boolean)`. -/
def namesOf (ps : List (Sid × Player)) (l : List Sid) : List String :=
  (l.map (fun i => nameOr ps i)).filter (fun n => !(n == ""))

/-- `const roles = ['Babu', 'Police', 'Chor', 'Dakat'];` -/
def rolesList : List String := ["Babu", "Police", "Chor", "Dakat"]

/-- Body of the `currentPlayers.forEach((id, idx) => ...)` loop of
`assignRoles`: store the role, set the pending points, and award Babu's 900
immediately. -/
def assignStep (r : String) (p : Player) : Player :=
  { p with role := r, pending := rolePoints r,
           score := p.score + (if r = "Babu" then rolePoints "Babu" else 0) }

def assignLoop : List (Sid × String) → List (Sid × Player) → List (Sid × Player)
  | [], ps => ps
  | (i, r) :: rest, ps => assignLoop rest (setP ps i (assignStep r))

/-- `assignRoles()` of `src/server.js`: shuffle the role array with the random
comparator (`roles.sort(() => Math.random() - 0.5)`, modelled by `sortCmp`
over the comparator-outcome stream `coins`), pair it positionally with
`currentPlayers`, and clear `awaitingShuffle`. -/
def assignRoles (coins : List Bool) (s : GState) : GState :=
  let shuffled := (sortCmp rolesList coins).1
  { s with players := assignLoop (s.currentPlayers.zip shuffled) s.players,
           awaitingShuffle := false }

/-- The suspects list sent to the police:
`currentPlayers.filter(id => id !== policeId && players[id].role !== 'Babu')`. -/
def suspects (s : GState) (policeId : Sid) : List Sid :=
  s.currentPlayers.filter (fun i => !(i == policeId) && !(roleIs s.players i "Babu"))

/-- `startRound()`: increment the round counter, assign roles, raise
`awaitingShuffle`, broadcast the new round, and prompt the police with the
round's guess target and the suspects list. -/
def startRound (coins : List Bool) (s : GState) : GState :=
  let s1 : GState := { s with currentRound := s.currentRound + 1 }
  let s2 := assignRoles coins s1
  let s3 : GState := { s2 with awaitingShuffle := true,
                               emitted := s2.emitted ++ [Emit.rolesAssigned s2.currentRound] }
  let guessTarget := if s3.currentRound % 2 = 1 then "Chor" else "Dakat"
  match s3.currentPlayers.find? (fun i => roleIs s3.players i "Police") with
  | some policeId =>
      { s3 with emitted := s3.emitted ++ [Emit.policeTurn guessTarget (suspects s3 policeId)] }
  | none => s3

/-- `gains[i] += v` on the per-round gains object (initialised to 0). -/
def addG (g : Sid → Int) (i : Sid) (v : Int) : Sid → Int :=
  fun j => if j = i then g j + v else g j

/-- `currentPlayers.forEach(id => { if (players[id].role !== 'Babu')
players[id].score += gains[id]; })`. -/
def applyGains (gains : Sid → Int) : List Sid → List (Sid × Player) → List (Sid × Player)
  | [], ps => ps
  | i :: rest, ps =>
    applyGains gains rest
      (if roleIs ps i "Babu" then ps
       else setP ps i (fun p => { p with score := p.score + gains i }))

/-- `resolveRound(policeId, guessedId)` of `src/server.js`.  Returns `none`
when an expected role-holder is missing from the registry: the JS code would
throw on the corresponding property access before mutating any cumulative
score, so the faulting case leaves the state unchanged at the caller. -/
def resolveRound (policeId guessedId : Sid) (s : GState) : Option GState :=
  let guessTarget := if s.currentRound % 2 = 1 then "Chor" else "Dakat"
  match getP s.players policeId with
  | none => none
  | some policePlayer =>
  match s.currentPlayers.find? (fun i => roleIs s.players i "Chor") with
  | none => none
  | some chorId =>
  match s.currentPlayers.find? (fun i => roleIs s.players i "Dakat") with
  | none => none
  | some dakatId =>
  match getP s.players chorId, getP s.players dakatId with
  | some chorP, some dakatP =>
    let gains1 : Sid → Int :=
      match s.currentPlayers.find? (fun i => roleIs s.players i "Babu") with
      | some babuId => addG (fun _ => 0) babuId (rolePoints "Babu")
      | none => fun _ => 0
    let pn := policePlayer.name
    let cn := chorP.name
    let dn := dakatP.name
    let res : Bool × String × (Sid → Int) :=
      if guessTarget = "Chor" then
        if guessedId = chorId then
          (true, pn ++ " guessed correctly: " ++ cn ++ " is the Chor.",
           addG (addG gains1 policeId (rolePoints "Police")) dakatId (rolePoints "Dakat"))
        else
          (false,
           pn ++ " guessed incorrectly. " ++ cn ++ " was the Chor, and " ++ dn ++ " was the Dakat.",
           addG (addG gains1 dakatId (rolePoints "Dakat")) chorId (rolePoints "Chor"))
      else
        if guessedId = dakatId then
          (true, pn ++ " guessed correctly: " ++ dn ++ " is the Dakat.",
           addG (addG gains1 policeId (rolePoints "Police")) chorId (rolePoints "Chor"))
        else
          (false,
           pn ++ " guessed incorrectly. " ++ dn ++ " was the Dakat, and " ++ cn ++ " was the Chor.",
           addG (addG gains1 dakatId (rolePoints "Dakat")) chorId (rolePoints "Chor"))
    let players2 := applyGains res.2.2 s.currentPlayers s.players
    let hist : HistEntry :=
      { round := s.currentRound, message := res.2.1,
        gains := s.currentPlayers.map (fun i => (i, res.2.2 i)), correct := res.1 }
    let s1 : GState :=
      { s with players := players2, history := s.history ++ [hist],
               emitted := s.emitted ++ [Emit.roundResult s.currentRound res.1 res.2.1] }
    if s1.currentRound ≥ MAX_ROUNDS then
      let scores := s1.currentPlayers.map (fun i => scoreOr s1.players i)
      let highest : Int := match scores with | [] => 0 | x :: xs => xs.foldl max x
      let winners := (s1.currentPlayers.filter (fun i => scoreOr s1.players i == highest)).map
        (fun i => nameOr s1.players i)
      some { s1 with emitted := s1.emitted ++ [Emit.gameOver winners], awaitingShuffle := false }
    else
      some { s1 with awaitingShuffle := false, emitted := s1.emitted ++ [Emit.enableShuffle] }
  | _, _ => none

/-- `score: 0, role: '', pending: 0` applied to one player (used when a game
starts, on mid-game disconnect, and on restart). -/
def resetStep (p : Player) : Player :=
  { p with score := 0, role := "", pending := 0 }

def resetLoop : List Sid → List (Sid × Player) → List (Sid × Player)
  | [], ps => ps
  | i :: rest, ps => resetLoop rest (setP ps i resetStep)

/-- Payload of a `guess` event: `data.id` and/or `data.name` (duck-typed). -/
structure GuessData where
  gid : Option Sid
  gname : Option String
deriving Repr, DecidableEq

/-- The `connection` handler: register the socket and push it onto `waiting`. -/
def onConnect (i : Sid) (s : GState) : GState :=
  let ps' := addP s.players i { name := "", score := 0, role := "", pending := 0 }
  let w' := s.waiting ++ [i]
  { s with players := ps', waiting := w',
           emitted := s.emitted ++ [Emit.updatePlayers (namesOf ps' w')] }

/-- The `join` handler: store the trimmed name, broadcast the lobby, and when
four named players are waiting and no game is running, claim the first four,
zero their scores and roles, and enable the shuffle button. -/
def onJoin (i : Sid) (name : String) (s : GState) : GState :=
  if name = "" then s
  else
    match getP s.players i with
    | none => s
    | some _ =>
      let s1 : GState :=
        { s with players := setP s.players i (fun p => { p with name := trimJS name }) }
      let s2 : GState :=
        { s1 with emitted := s1.emitted ++ [Emit.updatePlayers (namesOf s1.players s1.waiting)] }
      let ready := s2.waiting.filter (fun j => !((nameOr s2.players j) == ""))
      if !s2.gameStarted && decide (ready.length ≥ 4) then
        let cur := ready.take 4
        let s3 : GState :=
          { s2 with currentPlayers := cur,
                    waiting := s2.waiting.filter (fun j => !(cur.contains j)),
                    gameStarted := true, currentRound := 0, history := [],
                    awaitingShuffle := false }
        let s4 : GState := { s3 with players := resetLoop cur s3.players }
        { s4 with emitted := s4.emitted ++ [Emit.enableShuffle] }
      else s2

/-- The `shuffle` handler: guarded by
`!gameStarted || awaitingShuffle || !currentPlayers.includes(socket.id)`. -/
def onShuffle (i : Sid) (coins : List Bool) (s : GState) : GState :=
  if !s.gameStarted || s.awaitingShuffle || !(s.currentPlayers.contains i) then s
  else startRound coins s

/-- The `guess` handler: guarded by `gameStarted && awaitingShuffle` and by
the sender holding the `Police` role; the target is resolved from `data.id`
(if a current player) with fallback to a name lookup. -/
def onGuess (i : Sid) (data : GuessData) (s : GState) : GState :=
  if !s.gameStarted || !s.awaitingShuffle then s
  else
    match getP s.players i with
    | none => s
    | some pl =>
      if pl.role ≠ "Police" then s
      else
        let nameLookup : Option Sid :=
          match data.gname with
          | some nm => s.currentPlayers.find? (fun j => nameOr s.players j == nm)
          | none => none
        let targetId : Option Sid :=
          match data.gid with
          | some t => if s.currentPlayers.contains t then some t else nameLookup
          | none => nameLookup
        match targetId with
        | none => s
        | some t =>
          match resolveRound i t s with
          | some s' => s'
          | none => s

/-- The `disconnect` handler: drop a waiting player, or reset the whole game
when an in-game player leaves (remaining players are zeroed and moved back to
`waiting`, a player-left notice and the new lobby are broadcast). -/
def onDisconnect (i : Sid) (s : GState) : GState :=
  if s.waiting.contains i then
    let w' := s.waiting.filter (fun j => !(j == i))
    let ps' := delP s.players i
    { s with waiting := w', players := ps',
             emitted := s.emitted ++ [Emit.updatePlayers (namesOf ps' w')] }
  else if s.currentPlayers.contains i then
    let cur' := s.currentPlayers.filter (fun j => !(j == i))
    let ps1 := resetLoop cur' s.players
    let w' := s.waiting ++ cur'
    let leftName :=
      match getP s.players i with
      | some p => if p.name = "" then "A player" else p.name
      | none => "A player"
    { s with currentPlayers := cur', history := [], currentRound := 0,
             awaitingShuffle := false, gameStarted := false,
             players := delP ps1 i, waiting := w',
             emitted := s.emitted ++ [Emit.playerLeft (leftName ++ " left. Game reset."),
                                      Emit.updatePlayers (namesOf ps1 w')] }
  else
    { s with players := delP s.players i,
             emitted := s.emitted ++ [Emit.updatePlayers (namesOf (delP s.players i) s.waiting)] }

/-- The `restart` handler. -/
def onRestart (s : GState) : GState :=
  if s.currentPlayers.length = 0 then s
  else
    let w' := s.waiting ++ s.currentPlayers
    let ps1 := resetLoop s.currentPlayers s.players
    { s with waiting := w', players := ps1, currentPlayers := [], history := [],
             currentRound := 0, awaitingShuffle := false, gameStarted := false,
             emitted := s.emitted ++ [Emit.gameReset, Emit.updatePlayers (namesOf ps1 w')] }

/-- Inbound events of `src/server.js`; a shuffle carries the comparator
outcomes its `assignRoles` call will consume. -/
inductive Event where
  | connect (i : Sid)
  | join (i : Sid) (name : String)
  | shuffle (i : Sid) (coins : List Bool)
  | guess (i : Sid) (data : GuessData)
  | disconnect (i : Sid)
  | restart
deriving Repr, DecidableEq

def step : Event → GState → GState
  | Event.connect i, s => onConnect i s
  | Event.join i n, s => onJoin i n s
  | Event.shuffle i coins, s => onShuffle i coins s
  | Event.guess i d, s => onGuess i d s
  | Event.disconnect i, s => onDisconnect i s
  | Event.restart, s => onRestart s

def init : GState :=
  { players := [], waiting := [], currentPlayers := [], gameStarted := false,
    awaitingShuffle := false, currentRound := 0, history := [], emitted := [] }

/-- Run the single-threaded event loop from the initial module state. -/
def run (es : List Event) : GState := es.foldl (fun s e => step e s) init

end ServerA

/-! ## ServerB: embedding of `src/server/index.js` (simple variant)

Rounds are chained by `setTimeout` callbacks that the code never cancels:
`joinGame` schedules the first `startRound` after 1 s, and `handleGuess`
schedules the next round after a 4 s cooldown.  Pending callbacks are modelled
as counters (`pendingStart`, `pendingCooldown`) incremented where the code
calls `setTimeout`, and explicit timer-fire events run the callback bodies;
a fire event with a zero counter is a no-op (no timer exists to fire). -/

namespace ServerB

/-- One entry of the `players` registry of `src/server/index.js`:
`{ id, name: null, score: 0, role: null }`. -/
structure Player where
  name : Option String
  score : Int
  role : Option String
deriving Repr, DecidableEq

/-- Outbound notifications of `src/server/index.js`, reduced to the payload
fields the specification talks about. -/
inductive Emit where
  | waitingList (names : List String)
  | roleAssigned (round : Nat)
  | requestGuess (targets : List Sid)
  | roundResult (message : String) (correct : Bool)
  | gameOver (winners : List String)
  | playerLeft
  | gameReset
deriving Repr, DecidableEq

/-- The module-level mutable state of `src/server/index.js`, the pending
`setTimeout` counters, and a log of emitted notifications. -/
structure GState where
  players : List (Sid × Player)
  waitingQueue : List Sid
  gameInProgress : Bool
  currentRound : Nat
  currentPlayers : List Sid
  pendingStart : Nat
  pendingCooldown : Nat
  emitted : List Emit
deriving Repr, DecidableEq

def MAX_ROUNDS : Nat := 10

/-- `const ROLE_POINTS = { Babu: 1000, Police: 500, Dakat: 300, Chor: 0 };` -/
def ROLE_POINTS (r : String) : Int :=
  if r = "Babu" then 1000
  else if r = "Police" then 500
  else if r = "Dakat" then 300
  else 0

/-- `players[i].role === some r`. -/
def roleIs (ps : List (Sid × Player)) (i : Sid) (r : String) : Bool :=
  match getP ps i with
  | some p => p.role == some r
  | none => false

/-- JS string interpolation of a possibly-null value. -/
def showOpt : Option String → String
  | some n => n
  | none => "null"

/-- `const roles = ['Babu', 'Police', 'Dakat', 'Chor'];` -/
def rolesList : List String := ["Babu", "Police", "Dakat", "Chor"]

/-- Body of the `currentPlayers.forEach((id, index) => ...)` loop of
`assignRoles`: store the role and add its `ROLE_POINTS` grant to the
cumulative score. -/
def assignStep (r : String) (p : Player) : Player :=
  { p with role := some r, score := p.score + ROLE_POINTS r }

def assignLoop : List (Sid × String) → List (Sid × Player) → List (Sid × Player)
  | [], ps => ps
  | (i, r) :: rest, ps => assignLoop rest (setP ps i (assignStep r))

/-- `assignRoles()` of `src/server/index.js`:
`roles.sort(() => 0.5 - Math.random())` modelled by `sortCmp` over the
comparator-outcome stream. -/
def assignRoles (coins : List Bool) (s : GState) : GState :=
  let shuffled := (sortCmp rolesList coins).1
  { s with players := assignLoop (s.currentPlayers.zip shuffled) s.players }

/-- `startRound()`: increment the round counter, assign roles, notify every
player, and ask the police to guess among all current players but themselves
(the Babu is not excluded from the target list in this variant). -/
def startRound (coins : List Bool) (s : GState) : GState :=
  let s1 : GState := { s with currentRound := s.currentRound + 1 }
  let s2 := assignRoles coins s1
  let s3 : GState := { s2 with emitted := s2.emitted ++ [Emit.roleAssigned s2.currentRound] }
  match s3.currentPlayers.find? (fun i => roleIs s3.players i "Police") with
  | some policeId =>
      let targets := s3.currentPlayers.filter (fun i => !(i == policeId))
      { s3 with emitted := s3.emitted ++ [Emit.requestGuess targets] }
  | none => s3

/-- `resetGame()`: clear the game flags, move every registered socket back to
the waiting queue (`Object.keys(players)` in insertion order), null all roles
but keep all scores, and broadcast `gameReset`.  The pending timers are not
cancelled (the code has no `clearTimeout`). -/
def resetGame (s : GState) : GState :=
  { s with gameInProgress := false, currentRound := 0, currentPlayers := [],
           waitingQueue := s.players.map (fun e => e.1),
           players := mapP s.players (fun p => { p with role := none }),
           emitted := s.emitted ++ [Emit.gameReset] }

/-- `handleGuess(policeId, guessedId)`: a wrong guess moves the police's 500
role points to the guessed player; then either schedule the cooldown timer for
the next round or finish the game, broadcast the winners and reset. -/
def handleGuess (policeId guessedId : Sid) (s : GState) : GState :=
  match getP s.players guessedId, getP s.players policeId with
  | some guessedPlayer, some policePlayer =>
    let correct := guessedPlayer.role == some "Chor"
    let pn := showOpt policePlayer.name
    let gn := showOpt guessedPlayer.name
    let resultMessage :=
      if correct then pn ++ " correctly guessed that " ++ gn ++ " is the Chor."
      else pn ++ " guessed incorrectly; " ++ gn ++ " was the " ++ showOpt guessedPlayer.role ++ "."
    let players1 :=
      if correct then s.players
      else
        let pointsToTransfer := ROLE_POINTS "Police"
        setP (setP s.players policeId (fun q => { q with score := q.score - pointsToTransfer }))
          guessedId (fun q => { q with score := q.score + pointsToTransfer })
    let s1 : GState :=
      { s with players := players1,
               emitted := s.emitted ++ [Emit.roundResult resultMessage correct] }
    if s1.currentRound < MAX_ROUNDS then
      { s1 with pendingCooldown := s1.pendingCooldown + 1 }
    else
      let s2 : GState := { s1 with gameInProgress := false }
      let scores := s2.currentPlayers.map (fun i =>
        match getP s2.players i with | some p => p.score | none => 0)
      let highest : Int := match scores with | [] => 0 | x :: xs => xs.foldl max x
      let winners := (s2.currentPlayers.filter (fun i =>
        (match getP s2.players i with | some p => p.score | none => 0) == highest)).map
        (fun i => match getP s2.players i with | some p => showOpt p.name | none => "null")
      resetGame { s2 with emitted := s2.emitted ++ [Emit.gameOver winners] }
  | _, _ => s

/-- The `connection` handler. -/
def onConnect (i : Sid) (s : GState) : GState :=
  { s with players := addP s.players i { name := none, score := 0, role := none },
           waitingQueue := s.waitingQueue ++ [i] }

/-- The `joinGame` handler: store the trimmed name, broadcast the waiting
list, and when at least four named players wait and no game runs, claim the
first four and schedule `startRound` (1 s `setTimeout`). -/
def onJoinGame (i : Sid) (name : String) (s : GState) : GState :=
  if trimJS name = "" then s
  else
    match getP s.players i with
    | none => s
    | some _ =>
      let s1 : GState :=
        { s with players := setP s.players i (fun p => { p with name := some (trimJS name) }) }
      let waitingNames := (s1.waitingQueue.map (fun j =>
        match getP s1.players j with | some p => p.name | none => none)).filterMap (fun n => n)
      let s2 : GState := { s1 with emitted := s1.emitted ++ [Emit.waitingList waitingNames] }
      if !s2.gameInProgress then
        let readyPlayers := s2.waitingQueue.filter (fun j =>
          match getP s2.players j with | some p => p.name.isSome | none => false)
        if decide (readyPlayers.length ≥ 4) then
          let cur := readyPlayers.take 4
          { s2 with currentPlayers := cur,
                    waitingQueue := s2.waitingQueue.filter (fun j => !(cur.contains j)),
                    gameInProgress := true, currentRound := 0,
                    pendingStart := s2.pendingStart + 1 }
        else s2
      else s2

/-- The `guess` handler: guarded by `gameInProgress`, by the sender holding
the `Police` role, and by the target being a current player.  Nothing guards
against a round that has already been resolved. -/
def onGuess (i : Sid) (guessedId : Sid) (s : GState) : GState :=
  if !s.gameInProgress then s
  else if roleIs s.players i "Police" then
    if s.currentPlayers.contains guessedId then handleGuess i guessedId s else s
  else s

/-- The `disconnect` handler: deregister the socket everywhere; if it was in
the active game, notify the remaining players and reset the game. -/
def onDisconnect (i : Sid) (s : GState) : GState :=
  let wasCurrent := s.currentPlayers.contains i
  let s1 : GState :=
    { s with players := delP s.players i,
             waitingQueue := s.waitingQueue.filter (fun j => !(j == i)),
             currentPlayers := s.currentPlayers.filter (fun j => !(j == i)) }
  if wasCurrent then
    resetGame { s1 with emitted := s1.emitted ++ [Emit.playerLeft] }
  else s1

/-- Firing of the 1 s `setTimeout(() => startRound(), 1000)` scheduled by
`onJoinGame`. -/
def fireStart (coins : List Bool) (s : GState) : GState :=
  if s.pendingStart = 0 then s
  else startRound coins { s with pendingStart := s.pendingStart - 1 }

/-- Firing of the 4 s cooldown `setTimeout` scheduled by `handleGuess`: clear
the roles of the (current!) `currentPlayers` and start the next round.  The
callback performs no validity check on the game state. -/
def fireCooldown (coins : List Bool) (s : GState) : GState :=
  if s.pendingCooldown = 0 then s
  else
    let s1 : GState := { s with pendingCooldown := s.pendingCooldown - 1 }
    let s2 : GState :=
      { s1 with players := clearRoles s1.currentPlayers s1.players }
    startRound coins s2
where
  clearRoles : List Sid → List (Sid × Player) → List (Sid × Player)
    | [], ps => ps
    | i :: rest, ps => clearRoles rest (setP ps i (fun p => { p with role := none }))

/-- Inbound events of `src/server/index.js`, including the timer firings. -/
inductive Event where
  | connect (i : Sid)
  | joinGame (i : Sid) (name : String)
  | guess (i : Sid) (target : Sid)
  | disconnect (i : Sid)
  | fireStart (coins : List Bool)
  | fireCooldown (coins : List Bool)
deriving Repr, DecidableEq

def step : Event → GState → GState
  | Event.connect i, s => onConnect i s
  | Event.joinGame i n, s => onJoinGame i n s
  | Event.guess i t, s => onGuess i t s
  | Event.disconnect i, s => onDisconnect i s
  | Event.fireStart coins, s => fireStart coins s
  | Event.fireCooldown coins, s => fireCooldown coins s

def init : GState :=
  { players := [], waitingQueue := [], gameInProgress := false, currentRound := 0,
    currentPlayers := [], pendingStart := 0, pendingCooldown := 0, emitted := [] }

/-- Run the single-threaded event loop from the initial module state. -/
def run (es : List Event) : GState := es.foldl (fun s e => step e s) init

end ServerB

/-! ## Concrete executions

Shared scripts used by the claim theorems and witnesses.  With the all-`true`
comparator stream `coinsId` the sort reproduces the role list in order, so
after the four joins player 1 holds the first role, player 2 the second, and
so on (checked by the theorems below by evaluation). -/

def coinsId : List Bool := [true, true, true, true, true, true]

/-- Four sockets connect and join with names Alice, Bob, Carol, Dan
(`src/server.js`); the fourth join claims all four into a game. -/
def scriptJoinA : List ServerA.Event :=
  [ServerA.Event.connect 1, ServerA.Event.connect 2, ServerA.Event.connect 3,
   ServerA.Event.connect 4, ServerA.Event.join 1 "Alice", ServerA.Event.join 2 "Bob",
   ServerA.Event.join 3 "Carol", ServerA.Event.join 4 "Dan"]

/-- One full round of `src/server.js`: player 1 shuffles (roles become
1 ↦ Babu, 2 ↦ Police, 3 ↦ Chor, 4 ↦ Dakat under `coinsId`), then the police
(player 2) guesses player 3. -/
def scriptRoundA : List ServerA.Event :=
  [ServerA.Event.shuffle 1 coinsId,
   ServerA.Event.guess 2 { gid := some 3, gname := none }]

/-- The state of `src/server.js` right after round 1's roles are assigned. -/
def scriptShuffledA : List ServerA.Event := scriptJoinA ++ [ServerA.Event.shuffle 1 coinsId]

/-- A full ten-round game of `src/server.js`. -/
def scriptTenA : List ServerA.Event :=
  scriptJoinA ++ (List.replicate 10 scriptRoundA).flatten

/-- The same game followed by one more shuffle event after the game is over. -/
def scriptElevenA : List ServerA.Event := scriptTenA ++ [ServerA.Event.shuffle 1 coinsId]

/-- Four sockets connect and join (`src/server/index.js`), then the scheduled
1-second start timer fires: roles become 1 ↦ Babu, 2 ↦ Police, 3 ↦ Dakat,
4 ↦ Chor under `coinsId`. -/
def scriptJoinB : List ServerB.Event :=
  [ServerB.Event.connect 1, ServerB.Event.connect 2, ServerB.Event.connect 3,
   ServerB.Event.connect 4, ServerB.Event.joinGame 1 "Alice", ServerB.Event.joinGame 2 "Bob",
   ServerB.Event.joinGame 3 "Carol", ServerB.Event.joinGame 4 "Dan",
   ServerB.Event.fireStart coinsId]

/-- The police (player 2) wrongly guesses the Dakat holder (player 3). -/
def scriptOneGuessB : List ServerB.Event := scriptJoinB ++ [ServerB.Event.guess 2 3]

/-- A second identical guess event arriving during the 4-second cooldown. -/
def scriptTwoGuessesB : List ServerB.Event := scriptOneGuessB ++ [ServerB.Event.guess 2 3]

/-- A further guess at the Babu holder (player 1) during the cooldown. -/
def scriptGuessBabuB : List ServerB.Event := scriptOneGuessB ++ [ServerB.Event.guess 2 1]

/-- Player 4 disconnects during the cooldown window. -/
def scriptDisconnectCooldownB : List ServerB.Event :=
  scriptOneGuessB ++ [ServerB.Event.disconnect 4]

/-- After the disconnect reset, the never-cancelled cooldown timer fires. -/
def scriptStaleTimerB : List ServerB.Event :=
  scriptDisconnectCooldownB ++ [ServerB.Event.fireCooldown coinsId]

/-- Player 4 disconnects mid-round (before any guess). -/
def scriptMidRoundLeaveB : List ServerB.Event := scriptJoinB ++ [ServerB.Event.disconnect 4]

/-! ## Basic lemmas about the sort model and the registry -/

theorem insertCmp_perm (x : α) (l : List α) (bs : List Bool) :
    (insertCmp x l bs).1.Perm (x :: l) := by
  induction l generalizing bs with
  | nil => simp [insertCmp]
  | cons y ys ih =>
    cases bs with
    | nil =>
      simp only [insertCmp]
      have := ih []
      cases h2 : insertCmp x ys [] with
      | mk zs bs'' =>
        rw [h2] at this
        simpa using (this.cons y).trans (List.Perm.swap x y ys)
    | cons b rest =>
      cases b with
      | true => simp [insertCmp]
      | false =>
        have := ih rest
        cases h2 : insertCmp x ys rest with
        | mk zs bs'' =>
          rw [h2] at this
          simpa [insertCmp, h2] using (this.cons y).trans (List.Perm.swap x y ys)

/-- Whatever the comparator stream, the sort returns a permutation of its
input: the random-comparator shuffle can never drop or duplicate a role. -/
theorem sortCmp_perm (l : List α) (bs : List Bool) :
    (sortCmp l bs).1.Perm l := by
  induction l generalizing bs with
  | nil => simp [sortCmp]
  | cons x xs ih =>
    simp only [sortCmp]
    cases h : sortCmp xs bs with
    | mk s bs' =>
      have hs : s.Perm xs := by have := ih bs; rw [h] at this; exact this
      exact (insertCmp_perm x s bs').trans (hs.cons x)

@[simp] theorem getP_setP_self (ps : List (Sid × α)) (i : Sid) (f : α → α) :
    getP (setP ps i f) i = (getP ps i).map f := by
  induction ps with
  | nil => simp [getP, setP]
  | cons e rest ih =>
    obtain ⟨k, v⟩ := e
    by_cases h : k = i
    · subst h; simp [getP, setP]
    · simp [getP, setP, h, ih]

theorem getP_setP_ne (ps : List (Sid × α)) {i j : Sid} (f : α → α) (h : j ≠ i) :
    getP (setP ps i f) j = getP ps j := by
  induction ps with
  | nil => simp [getP, setP]
  | cons e rest ih =>
    obtain ⟨k, v⟩ := e
    by_cases he : k = i
    · subst he
      have hkj : ¬ k = j := fun hc => h hc.symm
      simp [getP, setP, hkj, ih]
    · by_cases hj : k = j
      · subst hj
        simp [getP, setP, he]
      · simp [getP, setP, he, hj, ih]

theorem getP_delP_ne (ps : List (Sid × α)) {i j : Sid} (h : j ≠ i) :
    getP (delP ps i) j = getP ps j := by
  induction ps with
  | nil => simp [getP, delP]
  | cons e rest ih =>
    obtain ⟨k, v⟩ := e
    by_cases he : k = i
    · subst he
      have hkj : ¬ k = j := fun hc => h hc.symm
      simp [getP, delP, hkj, ih]
    · by_cases hj : k = j
      · subst hj
        simp [getP, delP, he]
      · simp [getP, delP, he, hj, ih]

@[simp] theorem getP_mapP (ps : List (Sid × α)) (f : α → α) (i : Sid) :
    getP (mapP ps f) i = (getP ps i).map f := by
  induction ps with
  | nil => simp [getP, mapP]
  | cons e rest ih =>
    obtain ⟨k, v⟩ := e
    by_cases h : k = i
    · subst h; simp [getP, mapP]
    · simp [getP, mapP, h, ih]

theorem isSome_getP_setP (ps : List (Sid × α)) (i j : Sid) (f : α → α) :
    (getP (setP ps i f) j).isSome = (getP ps j).isSome := by
  by_cases h : j = i
  · subst h; simp
  · rw [getP_setP_ne ps f h]

/-! ## Lemmas about the update loops of `src/server.js` -/

theorem getP_assignLoopA_not_mem (zl : List (Sid × String)) (ps : List (Sid × ServerA.Player))
    (i : Sid) (h : i ∉ zl.map Prod.fst) :
    getP (ServerA.assignLoop zl ps) i = getP ps i := by
  induction zl generalizing ps with
  | nil => rfl
  | cons e rest ih =>
    obtain ⟨j, r⟩ := e
    simp only [List.map_cons, List.mem_cons] at h
    push_neg at h
    simp only [ServerA.assignLoop]
    rw [ih _ h.2, getP_setP_ne _ _ h.1]

theorem getP_assignLoopA_mem (zl : List (Sid × String)) (ps : List (Sid × ServerA.Player))
    (i : Sid) (r : String) (hnd : (zl.map Prod.fst).Nodup) (hmem : (i, r) ∈ zl) :
    getP (ServerA.assignLoop zl ps) i = (getP ps i).map (ServerA.assignStep r) := by
  induction zl generalizing ps with
  | nil => cases hmem
  | cons e rest ih =>
    obtain ⟨j, q⟩ := e
    simp only [List.map_cons, List.nodup_cons] at hnd
    rcases List.mem_cons.mp hmem with heq | hmem2
    · cases heq
      simp only [ServerA.assignLoop]
      rw [getP_assignLoopA_not_mem _ _ _ hnd.1]
      simp
    · have hij : i ≠ j := by
        intro he
        subst he
        exact hnd.1 (List.mem_map_of_mem Prod.fst hmem2)
      simp only [ServerA.assignLoop]
      rw [ih _ hnd.2 hmem2, getP_setP_ne _ _ hij]

theorem roleIsA_setP_score (ps : List (Sid × ServerA.Player)) (i j : Sid) (v : Int)
    (r : String) :
    ServerA.roleIs (setP ps j (fun p => { p with score := p.score + v })) i r
      = ServerA.roleIs ps i r := by
  by_cases h : i = j
  · subst h
    unfold ServerA.roleIs
    rw [getP_setP_self]
    cases getP ps i <;> simp
  · unfold ServerA.roleIs
    rw [getP_setP_ne _ _ h]

theorem getP_applyGainsA_not_mem (g : Sid → Int) (l : List Sid)
    (ps : List (Sid × ServerA.Player)) (i : Sid) (h : i ∉ l) :
    getP (ServerA.applyGains g l ps) i = getP ps i := by
  induction l generalizing ps with
  | nil => rfl
  | cons j rest ih =>
    simp only [List.mem_cons] at h
    push_neg at h
    simp only [ServerA.applyGains]
    rw [ih _ h.2]
    by_cases hb : ServerA.roleIs ps j "Babu" = true
    · rw [if_pos hb]
    · rw [if_neg hb, getP_setP_ne _ _ h.1]

theorem getP_applyGainsA_babu (g : Sid → Int) (l : List Sid)
    (ps : List (Sid × ServerA.Player)) (b : Sid) (hb : ServerA.roleIs ps b "Babu" = true) :
    getP (ServerA.applyGains g l ps) b = getP ps b := by
  induction l generalizing ps with
  | nil => rfl
  | cons j rest ih =>
    simp only [ServerA.applyGains]
    by_cases hj : ServerA.roleIs ps j "Babu" = true
    · rw [if_pos hj]
      exact ih ps hb
    · rw [if_neg hj]
      have hjb : b ≠ j := by
        intro he
        subst he
        exact hj hb
      have hb2 : ServerA.roleIs (setP ps j (fun p => { p with score := p.score + g j })) b "Babu" = true := by
        rw [roleIsA_setP_score]
        exact hb
      rw [ih _ hb2, getP_setP_ne _ _ hjb]

theorem getP_applyGainsA_mem (g : Sid → Int) (l : List Sid)
    (ps : List (Sid × ServerA.Player)) (i : Sid) (hnd : l.Nodup) (hi : i ∈ l)
    (hrole : ServerA.roleIs ps i "Babu" = false) :
    getP (ServerA.applyGains g l ps) i
      = (getP ps i).map (fun p => { p with score := p.score + g i }) := by
  induction l generalizing ps with
  | nil => cases hi
  | cons j rest ih =>
    simp only [List.nodup_cons] at hnd
    rcases List.mem_cons.mp hi with he | hmem
    · subst he
      simp only [ServerA.applyGains]
      rw [if_neg (by simp [hrole]), getP_applyGainsA_not_mem _ _ _ _ hnd.1]
      simp
    · have hij : i ≠ j := by
        intro he
        subst he
        exact hnd.1 hmem
      simp only [ServerA.applyGains]
      by_cases hj : ServerA.roleIs ps j "Babu" = true
      · rw [if_pos hj]
        exact ih _ hnd.2 hmem hrole
      · rw [if_neg hj]
        have hrole2 : ServerA.roleIs (setP ps j (fun p => { p with score := p.score + g j })) i "Babu" = false := by
          rw [roleIsA_setP_score]
          exact hrole
        rw [ih _ hnd.2 hmem hrole2, getP_setP_ne _ _ hij]

theorem getP_resetLoopA_not_mem (l : List Sid) (ps : List (Sid × ServerA.Player)) (i : Sid)
    (h : i ∉ l) : getP (ServerA.resetLoop l ps) i = getP ps i := by
  induction l generalizing ps with
  | nil => rfl
  | cons j rest ih =>
    simp only [List.mem_cons] at h
    push_neg at h
    simp only [ServerA.resetLoop]
    rw [ih _ h.2, getP_setP_ne _ _ h.1]

theorem getP_resetLoopA_mem (l : List Sid) (ps : List (Sid × ServerA.Player)) (i : Sid)
    (hnd : l.Nodup) (hi : i ∈ l) :
    getP (ServerA.resetLoop l ps) i = (getP ps i).map ServerA.resetStep := by
  induction l generalizing ps with
  | nil => cases hi
  | cons j rest ih =>
    simp only [List.nodup_cons] at hnd
    rcases List.mem_cons.mp hi with he | hmem
    · subst he
      simp only [ServerA.resetLoop]
      rw [getP_resetLoopA_not_mem _ _ _ hnd.1]
      simp
    · have hij : i ≠ j := by
        intro he
        subst he
        exact hnd.1 hmem
      simp only [ServerA.resetLoop]
      rw [ih _ hnd.2 hmem, getP_setP_ne _ _ hij]

/-- The roles written by `assignRoles`' loop, read back in participant order,
are exactly the shuffled role list. -/
theorem assignLoopA_roles (l : List Sid) (sh : List String) (ps : List (Sid × ServerA.Player))
    (hnd : l.Nodup) (hlen : l.length = sh.length)
    (hdom : ∀ i ∈ l, (getP ps i).isSome = true) :
    l.map (fun i => (getP (ServerA.assignLoop (l.zip sh) ps) i).map ServerA.Player.role)
      = sh.map some := by
  induction l generalizing sh ps with
  | nil =>
    have h0 : sh.length = 0 := by simpa using hlen.symm
    have h1 : sh = [] := List.length_eq_zero.mp h0
    subst h1
    rfl
  | cons i t ih =>
    cases sh with
    | nil => simp at hlen
    | cons r sr =>
      simp only [List.nodup_cons] at hnd
      have hlen2 : t.length = sr.length := by simpa using hlen
      have hkeys : (t.zip sr).map Prod.fst = t :=
        List.map_fst_zip t sr (le_of_eq hlen2)
      have hdom1 : ∀ j ∈ t, (getP (setP ps i (ServerA.assignStep r)) j).isSome = true := by
        intro j hj
        rw [isSome_getP_setP]
        exact hdom j (List.mem_cons_of_mem _ hj)
      simp only [List.zip_cons_cons, List.map_cons, ServerA.assignLoop]
      rw [← show t.zip sr = List.zipWith Prod.mk t sr from rfl]
      rw [ih sr _ hnd.2 hlen2 hdom1]
      have hnotmem : i ∉ (t.zip sr).map Prod.fst := by
        rw [hkeys]
        exact hnd.1
      rw [getP_assignLoopA_not_mem _ _ _ hnotmem, getP_setP_self]
      obtain ⟨p, hp⟩ := Option.isSome_iff_exists.mp (hdom i (List.mem_cons_self i t))
      rw [hp]
      rfl

/-! ## Lemmas about the role-assignment loop of `src/server/index.js` -/

theorem getP_assignLoopB_not_mem (zl : List (Sid × String)) (ps : List (Sid × ServerB.Player))
    (i : Sid) (h : i ∉ zl.map Prod.fst) :
    getP (ServerB.assignLoop zl ps) i = getP ps i := by
  induction zl generalizing ps with
  | nil => rfl
  | cons e rest ih =>
    obtain ⟨j, r⟩ := e
    simp only [List.map_cons, List.mem_cons] at h
    push_neg at h
    simp only [ServerB.assignLoop]
    rw [ih _ h.2, getP_setP_ne _ _ h.1]

/-- The roles written by the `src/server/index.js` `assignRoles` loop, read
back in participant order, are exactly the shuffled role list (wrapped in
`some` once by the registry lookup and once by the nullable `role` field). -/
theorem assignLoopB_roles (l : List Sid) (sh : List String) (ps : List (Sid × ServerB.Player))
    (hnd : l.Nodup) (hlen : l.length = sh.length)
    (hdom : ∀ i ∈ l, (getP ps i).isSome = true) :
    l.map (fun i => (getP (ServerB.assignLoop (l.zip sh) ps) i).map ServerB.Player.role)
      = sh.map (fun r => some (some r)) := by
  induction l generalizing sh ps with
  | nil =>
    have h0 : sh.length = 0 := by simpa using hlen.symm
    have h1 : sh = [] := List.length_eq_zero.mp h0
    subst h1
    rfl
  | cons i t ih =>
    cases sh with
    | nil => simp at hlen
    | cons r sr =>
      simp only [List.nodup_cons] at hnd
      have hlen2 : t.length = sr.length := by simpa using hlen
      have hkeys : (t.zip sr).map Prod.fst = t :=
        List.map_fst_zip t sr (le_of_eq hlen2)
      have hdom1 : ∀ j ∈ t, (getP (setP ps i (ServerB.assignStep r)) j).isSome = true := by
        intro j hj
        rw [isSome_getP_setP]
        exact hdom j (List.mem_cons_of_mem _ hj)
      simp only [List.zip_cons_cons, List.map_cons, ServerB.assignLoop]
      rw [← show t.zip sr = List.zipWith Prod.mk t sr from rfl]
      rw [ih sr _ hnd.2 hlen2 hdom1]
      have hnotmem : i ∉ (t.zip sr).map Prod.fst := by
        rw [hkeys]
        exact hnd.1
      rw [getP_assignLoopB_not_mem _ _ _ hnotmem, getP_setP_self]
      obtain ⟨p, hp⟩ := Option.isSome_iff_exists.mp (hdom i (List.mem_cons_self i t))
      rw [hp]
      rfl

/-- C1: the role shuffle `roles.sort(() => Math.random() - 0.5)` of
`assignRoles` is NOT an unbiased uniform permutation.  Over the 64
equiprobable streams of six fair-coin comparator outcomes (six comparisons
sort four elements), the identity arrangement of the role list is produced by
8 streams while its reversal is produced by only one, in both server
variants' role orders — uniformity over the 24 permutations would require
equal counts. -/
theorem c1_random_comparator_shuffle_not_uniform :
    streamCount ServerA.rolesList ["Babu", "Police", "Chor", "Dakat"] = 8 ∧
    streamCount ServerA.rolesList ["Dakat", "Chor", "Police", "Babu"] = 1 ∧
    streamCount ServerB.rolesList ["Babu", "Police", "Dakat", "Chor"] = 8 ∧
    streamCount ServerB.rolesList ["Chor", "Dakat", "Police", "Babu"] = 1 := by
  decide

/-- C2: in `src/server/index.js` the round's deltas are NOT applied exactly
once.  The police's wrong guess resolves round 1 (Carol 300 → 800,
Bob 500 → 0) and schedules the cooldown timer; a second guess event arriving
before the timer fires passes the `guess` guard again (the game is in
progress and the sender still holds the Police role) and re-applies the
500-point transfer (Carol → 1300, Bob → −500). -/
theorem c2_second_guess_reapplies_deltas :
    getP (ServerB.run scriptOneGuessB).players 3
      = some { name := some "Carol", score := 800, role := some "Dakat" } ∧
    getP (ServerB.run scriptOneGuessB).players 2
      = some { name := some "Bob", score := 0, role := some "Police" } ∧
    (ServerB.run scriptOneGuessB).pendingCooldown = 1 ∧
    getP (ServerB.run scriptTwoGuessesB).players 3
      = some { name := some "Carol", score := 1300, role := some "Dakat" } ∧
    getP (ServerB.run scriptTwoGuessesB).players 2
      = some { name := some "Bob", score := -500, role := some "Police" } := by
  decide

/-- C3: the cooldown `setTimeout` of `handleGuess` performs NO validity check
before firing.  A disconnect during the cooldown resets the game
(`gameInProgress = false`, round counter 0, empty roster), yet the pending
timer still fires and calls `startRound`: the round counter jumps back to 1
while no game is in progress, and a second round-1 role-assignment broadcast
is emitted after the reset. -/
theorem c3_cooldown_timer_fires_after_reset :
    (ServerB.run scriptDisconnectCooldownB).gameInProgress = false ∧
    (ServerB.run scriptDisconnectCooldownB).currentRound = 0 ∧
    (ServerB.run scriptDisconnectCooldownB).currentPlayers = [] ∧
    (ServerB.run scriptStaleTimerB).currentRound = 1 ∧
    (ServerB.run scriptStaleTimerB).gameInProgress = false ∧
    (ServerB.run scriptStaleTimerB).emitted.count (ServerB.Emit.roleAssigned 1) = 2 := by
  decide

/-- C5: in `src/server.js` a start signal IS accepted after the final round.
After round 10 resolves, `gameOver` has been broadcast and `awaitingShuffle`
is false, but `gameStarted` is never cleared, so the shuffle guard
(`!gameStarted || awaitingShuffle || not a current player`) passes and a
further shuffle event begins an eleventh round: the round counter reaches 11,
exceeding `MAX_ROUNDS`. -/
theorem c5_eleventh_round_starts_after_game_over :
    (ServerA.run scriptTenA).currentRound = 10 ∧
    (ServerA.run scriptTenA).gameStarted = true ∧
    (ServerA.run scriptTenA).awaitingShuffle = false ∧
    ServerA.Emit.gameOver ["Alice"] ∈ (ServerA.run scriptTenA).emitted ∧
    (ServerA.run scriptElevenA).currentRound = 11 ∧
    (ServerA.run scriptElevenA).awaitingShuffle = true := by
  decide

/-- C4 counterexample: in `src/server/index.js` player 4 holds the Chor
(the designated target role) and player 3 the Dakat.  The police's wrong
guess at player 3 leaves the Chor holder's score unchanged at 0 and transfers
the 500 points to the guessed player instead (300 → 800), and the outcome
message reveals the guessed player's role, not the true Chor. -/
theorem c4_counterexample_transfer_goes_to_guessed_player :
    ServerB.roleIs (ServerB.run scriptJoinB).players 4 "Chor" = true ∧
    ServerB.roleIs (ServerB.run scriptJoinB).players 3 "Dakat" = true ∧
    getP (ServerB.run scriptOneGuessB).players 4
      = some { name := some "Dan", score := 0, role := some "Chor" } ∧
    getP (ServerB.run scriptOneGuessB).players 3
      = some { name := some "Carol", score := 800, role := some "Dakat" } ∧
    ServerB.Emit.roundResult "Bob guessed incorrectly; Carol was the Dakat." false
      ∈ (ServerB.run scriptOneGuessB).emitted := by
  decide

/-- C6 counterexample: in `src/server/index.js` a mid-game disconnect resets
the game, but the remaining players keep their cumulative scores: Alice
(the Babu, score 1000) is returned to the waiting queue with role cleared to
null and score still 1000, not 0. -/
theorem c6_counterexample_scores_kept_on_reset :
    getP (ServerB.run scriptJoinB).players 1
      = some { name := some "Alice", score := 1000, role := some "Babu" } ∧
    (ServerB.run scriptMidRoundLeaveB).gameInProgress = false ∧
    1 ∈ (ServerB.run scriptMidRoundLeaveB).waitingQueue ∧
    getP (ServerB.run scriptMidRoundLeaveB).players 1
      = some { name := some "Alice", score := 1000, role := none } := by
  decide

/-- C8: in `src/server/index.js` a guess submitted while no round is awaiting
a guess is NOT ignored.  After the police's guess has resolved round 1 (the
cooldown timer is pending, no round awaits a guess), a further guess event at
the Babu holder passes the guard and changes scores: Alice 1000 → 1500. -/
theorem c8_guess_while_not_awaiting_changes_score :
    (ServerB.run scriptOneGuessB).pendingCooldown = 1 ∧
    getP (ServerB.run scriptOneGuessB).players 1
      = some { name := some "Alice", score := 1000, role := some "Babu" } ∧
    getP (ServerB.run scriptGuessBabuB).players 1
      = some { name := some "Alice", score := 1500, role := some "Babu" } ∧
    getP (ServerB.run scriptGuessBabuB).players 2
      = some { name := some "Bob", score := -500, role := some "Police" } := by
  decide

/-! ## Claim theorems (general statements) -/

/-- C7: for every round started with 4 distinct registered participants, the
role assignment of `assignRoles` is a bijection onto the 4 roles, in BOTH
server variants: reading the assigned roles back in participant order yields
a permutation of the variant's role list, so each of the four roles is held
by exactly one participant and every participant holds exactly one role.
The first conjunct covers `src/server.js` (role read back as a `String`), the
second `src/server/index.js` (role read back as a nullable `Option String`). -/
theorem c7_assignRoles_bijection
    (sA : ServerA.GState) (coinsA : List Bool)
    (hndA : sA.currentPlayers.Nodup) (hlenA : sA.currentPlayers.length = 4)
    (hdomA : ∀ i ∈ sA.currentPlayers, (getP sA.players i).isSome = true)
    (sB : ServerB.GState) (coinsB : List Bool)
    (hndB : sB.currentPlayers.Nodup) (hlenB : sB.currentPlayers.length = 4)
    (hdomB : ∀ i ∈ sB.currentPlayers, (getP sB.players i).isSome = true) :
    (sA.currentPlayers.map
        (fun i => (getP (ServerA.assignRoles coinsA sA).players i).map ServerA.Player.role)).Perm
      (ServerA.rolesList.map some) ∧
    (sB.currentPlayers.map
        (fun i => (getP (ServerB.assignRoles coinsB sB).players i).map ServerB.Player.role)).Perm
      (ServerB.rolesList.map (fun r => some (some r))) := by
  constructor
  · have hperm := sortCmp_perm ServerA.rolesList coinsA
    have hlen2 : sA.currentPlayers.length = ((sortCmp ServerA.rolesList coinsA).1).length := by
      rw [hlenA, hperm.length_eq]
      rfl
    have hroles := assignLoopA_roles sA.currentPlayers ((sortCmp ServerA.rolesList coinsA).1)
        sA.players hndA hlen2 hdomA
    simp only [ServerA.assignRoles]
    rw [hroles]
    exact hperm.map some
  · have hperm := sortCmp_perm ServerB.rolesList coinsB
    have hlen2 : sB.currentPlayers.length = ((sortCmp ServerB.rolesList coinsB).1).length := by
      rw [hlenB, hperm.length_eq]
      rfl
    have hroles := assignLoopB_roles sB.currentPlayers ((sortCmp ServerB.rolesList coinsB).1)
        sB.players hndB hlen2 hdomB
    simp only [ServerB.assignRoles]
    rw [hroles]
    exact hperm.map (fun r => some (some r))

/-- C7 witness: the bijection theorem applied to concrete states of both
variants: the `src/server.js` state reached after the four joins (empty
comparator stream) and the `src/server/index.js` state of the running round-1
game (identity comparator stream). -/
theorem c7_assignRoles_bijection_witness :
    ((ServerA.run scriptJoinA).currentPlayers.map
        (fun i => (getP (ServerA.assignRoles [] (ServerA.run scriptJoinA)).players i).map
          ServerA.Player.role)).Perm (ServerA.rolesList.map some) ∧
    ((ServerB.run scriptJoinB).currentPlayers.map
        (fun i => (getP (ServerB.assignRoles coinsId (ServerB.run scriptJoinB)).players i).map
          ServerB.Player.role)).Perm (ServerB.rolesList.map (fun r => some (some r))) :=
  c7_assignRoles_bijection (ServerA.run scriptJoinA) [] (by decide) (by decide) (by decide)
    (ServerB.run scriptJoinB) coinsId (by decide) (by decide) (by decide)

/-- C9: the Babu's fixed 900-point grant is applied to the cumulative score
exactly once per round.  Part one: `assignRoles` adds 900 to the score of the
participant paired with the Babu role (and records role and pending points).
Part two: `resolveRound` leaves the Babu holder's registry entry completely
unchanged — even though the appended history entry's gains table lists the
Babu's 900 points. -/
theorem c9_babu_granted_once_per_round
    (s1 : ServerA.GState) (coins : List Bool) (i : Sid)
    (hnd1 : s1.currentPlayers.Nodup) (hlen1 : s1.currentPlayers.length = 4)
    (hzip : (i, "Babu") ∈ s1.currentPlayers.zip (sortCmp ServerA.rolesList coins).1)
    (s2 : ServerA.GState) (p g b c d : Sid) (pp : ServerA.Player)
    (hp : getP s2.players p = some pp) (hpr : pp.role = "Police")
    (hb : s2.currentPlayers.find? (fun j => ServerA.roleIs s2.players j "Babu") = some b)
    (hc : s2.currentPlayers.find? (fun j => ServerA.roleIs s2.players j "Chor") = some c)
    (hd : s2.currentPlayers.find? (fun j => ServerA.roleIs s2.players j "Dakat") = some d)
    (s' : ServerA.GState) (hres : ServerA.resolveRound p g s2 = some s') :
    getP (ServerA.assignRoles coins s1).players i
        = (getP s1.players i).map
            (fun q => { q with role := "Babu", pending := 900, score := q.score + 900 }) ∧
    getP s'.players b = getP s2.players b ∧
    ∃ e, s'.history = s2.history ++ [e] ∧ (b, (900 : Int)) ∈ e.gains := by
  have hperm := sortCmp_perm ServerA.rolesList coins
  have hkeys : (s1.currentPlayers.zip (sortCmp ServerA.rolesList coins).1).map Prod.fst
      = s1.currentPlayers := by
    apply List.map_fst_zip
    rw [hlen1, hperm.length_eq]
    exact le_refl 4
  constructor
  · simp only [ServerA.assignRoles]
    rw [getP_assignLoopA_mem _ _ _ _ (by rw [hkeys]; exact hnd1) hzip]
    rfl
  · -- facts about the round state
    have hbT : ServerA.roleIs s2.players b "Babu" = true := by
      have h0 := List.find?_some hb
      simpa using h0
    have hcT : ServerA.roleIs s2.players c "Chor" = true := by
      have h0 := List.find?_some hc
      simpa using h0
    have hdT : ServerA.roleIs s2.players d "Dakat" = true := by
      have h0 := List.find?_some hd
      simpa using h0
    have hbMem : b ∈ s2.currentPlayers := List.mem_of_find?_eq_some hb
    obtain ⟨pb, hgb, hrb⟩ : ∃ q, getP s2.players b = some q ∧ q.role = "Babu" := by
      unfold ServerA.roleIs at hbT
      cases hq : getP s2.players b with
      | none => rw [hq] at hbT; cases hbT
      | some q =>
        rw [hq] at hbT
        exact ⟨q, rfl, by simpa using hbT⟩
    obtain ⟨pc, hgc, hrc⟩ : ∃ q, getP s2.players c = some q ∧ q.role = "Chor" := by
      unfold ServerA.roleIs at hcT
      cases hq : getP s2.players c with
      | none => rw [hq] at hcT; cases hcT
      | some q =>
        rw [hq] at hcT
        exact ⟨q, rfl, by simpa using hcT⟩
    obtain ⟨pd, hgd, hrd⟩ : ∃ q, getP s2.players d = some q ∧ q.role = "Dakat" := by
      unfold ServerA.roleIs at hdT
      cases hq : getP s2.players d with
      | none => rw [hq] at hdT; cases hdT
      | some q =>
        rw [hq] at hdT
        exact ⟨q, rfl, by simpa using hdT⟩
    have hbc : b ≠ c := by
      intro he
      rw [he, hgc] at hgb
      cases hgb
      rw [hrc] at hrb
      exact absurd hrb (by decide)
    have hbd : b ≠ d := by
      intro he
      rw [he, hgd] at hgb
      cases hgb
      rw [hrd] at hrb
      exact absurd hrb (by decide)
    have hbp : b ≠ p := by
      intro he
      rw [he, hp] at hgb
      cases hgb
      rw [hpr] at hrb
      exact absurd hrb (by decide)
    simp only [ServerA.resolveRound, hp, hc, hd, hb, hgc, hgd] at hres
    by_cases hpar : s2.currentRound % 2 = 1
    · rw [if_pos hpar] at hres
      simp only [if_pos rfl] at hres
      by_cases hgc2 : g = c
      · rw [if_pos hgc2] at hres
        split at hres <;>
        · cases hres
          refine ⟨getP_applyGainsA_babu _ _ _ _ hbT, _, rfl, ?_⟩
          refine List.mem_map.mpr ⟨b, hbMem, ?_⟩
          simp [ServerA.addG, ServerA.rolePoints, hbp, hbd, hbc]
      · rw [if_neg hgc2] at hres
        split at hres <;>
        · cases hres
          refine ⟨getP_applyGainsA_babu _ _ _ _ hbT, _, rfl, ?_⟩
          refine List.mem_map.mpr ⟨b, hbMem, ?_⟩
          simp [ServerA.addG, ServerA.rolePoints, hbp, hbd, hbc]
    · rw [if_neg hpar] at hres
      simp only [if_neg (by decide : ¬("Dakat" = "Chor"))] at hres
      by_cases hgd2 : g = d
      · rw [if_pos hgd2] at hres
        split at hres <;>
        · cases hres
          refine ⟨getP_applyGainsA_babu _ _ _ _ hbT, _, rfl, ?_⟩
          refine List.mem_map.mpr ⟨b, hbMem, ?_⟩
          simp [ServerA.addG, ServerA.rolePoints, hbp, hbd, hbc]
      · rw [if_neg hgd2] at hres
        split at hres <;>
        · cases hres
          refine ⟨getP_applyGainsA_babu _ _ _ _ hbT, _, rfl, ?_⟩
          refine List.mem_map.mpr ⟨b, hbMem, ?_⟩
          simp [ServerA.addG, ServerA.rolePoints, hbp, hbd, hbc]

/-- C9 witness: the exactly-once theorem applied to the concrete first round
of the script (player 1 is the Babu, player 2 the Police; the police guesses
player 3, the Chor, resolving the round). -/
theorem c9_babu_granted_once_per_round_witness :
    getP (ServerA.assignRoles coinsId (ServerA.run scriptJoinA)).players 1
        = (getP (ServerA.run scriptJoinA).players 1).map
            (fun q => { q with role := "Babu", pending := 900, score := q.score + 900 }) ∧
    getP (ServerA.run (scriptJoinA ++ scriptRoundA)).players 1
        = getP (ServerA.run scriptShuffledA).players 1 ∧
    ∃ e, (ServerA.run (scriptJoinA ++ scriptRoundA)).history
          = (ServerA.run scriptShuffledA).history ++ [e] ∧ (1, (900 : Int)) ∈ e.gains :=
  c9_babu_granted_once_per_round (ServerA.run scriptJoinA) coinsId 1 (by decide) (by decide)
    (by decide) (ServerA.run scriptShuffledA) 2 3 1 3 4
    { name := "Bob", score := 0, role := "Police", pending := 800 }
    (by decide) (by decide) (by decide) (by decide) (by decide)
    (ServerA.run (scriptJoinA ++ scriptRoundA)) (by decide)

/-- C10: in `src/server.js` a guess event whose target id is any current
player passes the guard — even when the target is the Police themselves or
the Babu, both of whom are excluded from the suspects list sent to the
police.  Such a guess resolves the round as incorrect (the target holds
neither Chor nor Dakat) and the contingent grants are still applied: the Chor
holder gains 400 and the Dakat holder gains 600. -/
theorem c10_guess_outside_suspects_resolves_round
    (s : ServerA.GState) (p g c d : Sid) (pp gp : ServerA.Player)
    (hgs : s.gameStarted = true) (haw : s.awaitingShuffle = true)
    (hnd : s.currentPlayers.Nodup)
    (hp : getP s.players p = some pp) (hpr : pp.role = "Police")
    (hgmem : g ∈ s.currentPlayers) (hgp : getP s.players g = some gp)
    (hgrole : g = p ∨ gp.role = "Babu")
    (hc : s.currentPlayers.find? (fun j => ServerA.roleIs s.players j "Chor") = some c)
    (hd : s.currentPlayers.find? (fun j => ServerA.roleIs s.players j "Dakat") = some d) :
    g ∉ ServerA.suspects s p ∧
    (∃ m, ServerA.Emit.roundResult s.currentRound false m
        ∈ (ServerA.onGuess p { gid := some g, gname := none } s).emitted) ∧
    getP (ServerA.onGuess p { gid := some g, gname := none } s).players c
      = (getP s.players c).map (fun q => { q with score := q.score + 400 }) ∧
    getP (ServerA.onGuess p { gid := some g, gname := none } s).players d
      = (getP s.players d).map (fun q => { q with score := q.score + 600 }) := by
  have hcT : ServerA.roleIs s.players c "Chor" = true := by
    have h0 := List.find?_some hc
    simpa using h0
  have hdT : ServerA.roleIs s.players d "Dakat" = true := by
    have h0 := List.find?_some hd
    simpa using h0
  have hcMem : c ∈ s.currentPlayers := List.mem_of_find?_eq_some hc
  have hdMem : d ∈ s.currentPlayers := List.mem_of_find?_eq_some hd
  obtain ⟨pc, hgc, hrc⟩ : ∃ q, getP s.players c = some q ∧ q.role = "Chor" := by
    unfold ServerA.roleIs at hcT
    cases hq : getP s.players c with
    | none => rw [hq] at hcT; cases hcT
    | some q =>
      rw [hq] at hcT
      exact ⟨q, rfl, by simpa using hcT⟩
  obtain ⟨pd, hgd, hrd⟩ : ∃ q, getP s.players d = some q ∧ q.role = "Dakat" := by
    unfold ServerA.roleIs at hdT
    cases hq : getP s.players d with
    | none => rw [hq] at hdT; cases hdT
    | some q =>
      rw [hq] at hdT
      exact ⟨q, rfl, by simpa using hdT⟩
  have hgrole2 : gp.role = "Police" ∨ gp.role = "Babu" := by
    rcases hgrole with he | hB
    · subst he
      rw [hp] at hgp
      cases hgp
      exact Or.inl hpr
    · exact Or.inr hB
  have hgnec : ¬ g = c := by
    intro he
    rw [he, hgc] at hgp
    cases hgp
    rcases hgrole2 with h1 | h1 <;>
    · rw [hrc] at h1
      exact absurd h1 (by decide)
  have hgned : ¬ g = d := by
    intro he
    rw [he, hgd] at hgp
    cases hgp
    rcases hgrole2 with h1 | h1 <;>
    · rw [hrd] at h1
      exact absurd h1 (by decide)
  have hcd : ¬ c = d := by
    intro he
    rw [he, hgd] at hgc
    cases hgc
    rw [hrd] at hrc
    exact absurd hrc (by decide)
  have hdc : ¬ d = c := fun h => hcd h.symm
  have hcBabu : ServerA.roleIs s.players c "Babu" = false := by
    simp [ServerA.roleIs, hgc, hrc]
  have hdBabu : ServerA.roleIs s.players d "Babu" = false := by
    simp [ServerA.roleIs, hgd, hrd]
  have hsus : g ∉ ServerA.suspects s p := by
    intro hmem
    unfold ServerA.suspects at hmem
    rw [List.mem_filter] at hmem
    rcases hgrole with he | hB
    · subst he
      simp at hmem
    · have hgB : ServerA.roleIs s.players g "Babu" = true := by
        simp [ServerA.roleIs, hgp, hB]
      rw [hgB] at hmem
      simp at hmem
  have hcont : s.currentPlayers.contains g = true := by
    simpa using hgmem
  have key : ∃ sr, ServerA.resolveRound p g s = some sr ∧
      ((∃ m, ServerA.Emit.roundResult s.currentRound false m ∈ sr.emitted) ∧
       getP sr.players c = (getP s.players c).map (fun q => { q with score := q.score + 400 }) ∧
       getP sr.players d = (getP s.players d).map (fun q => { q with score := q.score + 600 })) := by
    simp only [ServerA.resolveRound, hp, hc, hd, hgc, hgd]
    rcases hbfind : s.currentPlayers.find? (fun j => ServerA.roleIs s.players j "Babu")
        with _ | b
    case none =>
      rw [if_neg hgnec, if_neg hgned]
      by_cases hpar : s.currentRound % 2 = 1
      · rw [if_pos hpar, if_pos rfl]
        split
        all_goals
          refine ⟨_, rfl, ⟨_, by simp [List.mem_append]; exact Or.inr rfl⟩, ?_, ?_⟩
        all_goals
          rw [getP_applyGainsA_mem]
        · rw [hgc]
          simp [ServerA.addG, ServerA.rolePoints, hcd]
        · exact hnd
        · exact hcMem
        · exact hcBabu
        · rw [hgd]
          simp [ServerA.addG, ServerA.rolePoints, hdc]
        · exact hnd
        · exact hdMem
        · exact hdBabu
        · rw [hgc]
          simp [ServerA.addG, ServerA.rolePoints, hcd]
        · exact hnd
        · exact hcMem
        · exact hcBabu
        · rw [hgd]
          simp [ServerA.addG, ServerA.rolePoints, hdc]
        · exact hnd
        · exact hdMem
        · exact hdBabu
      · rw [if_neg hpar, if_neg (by decide : ¬("Dakat" = "Chor"))]
        split
        all_goals
          refine ⟨_, rfl, ⟨_, by simp [List.mem_append]; exact Or.inr rfl⟩, ?_, ?_⟩
        all_goals
          rw [getP_applyGainsA_mem]
        · rw [hgc]
          simp [ServerA.addG, ServerA.rolePoints, hcd]
        · exact hnd
        · exact hcMem
        · exact hcBabu
        · rw [hgd]
          simp [ServerA.addG, ServerA.rolePoints, hdc]
        · exact hnd
        · exact hdMem
        · exact hdBabu
        · rw [hgc]
          simp [ServerA.addG, ServerA.rolePoints, hcd]
        · exact hnd
        · exact hcMem
        · exact hcBabu
        · rw [hgd]
          simp [ServerA.addG, ServerA.rolePoints, hdc]
        · exact hnd
        · exact hdMem
        · exact hdBabu
    case some =>
      have hbT : ServerA.roleIs s.players b "Babu" = true := by
        have h0 := List.find?_some hbfind
        simpa using h0
      obtain ⟨pb, hgb, hrb⟩ : ∃ q, getP s.players b = some q ∧ q.role = "Babu" := by
        unfold ServerA.roleIs at hbT
        cases hq : getP s.players b with
        | none => rw [hq] at hbT; cases hbT
        | some q =>
          rw [hq] at hbT
          exact ⟨q, rfl, by simpa using hbT⟩
      have hcb : ¬ c = b := by
        intro he
        rw [he, hgb] at hgc
        cases hgc
        rw [hrb] at hrc
        exact absurd hrc (by decide)
      have hdb : ¬ d = b := by
        intro he
        rw [he, hgb] at hgd
        cases hgd
        rw [hrb] at hrd
        exact absurd hrd (by decide)
      rw [if_neg hgnec, if_neg hgned]
      by_cases hpar : s.currentRound % 2 = 1
      · rw [if_pos hpar, if_pos rfl]
        split
        all_goals
          refine ⟨_, rfl, ⟨_, by simp [List.mem_append]; exact Or.inr rfl⟩, ?_, ?_⟩
        all_goals
          rw [getP_applyGainsA_mem]
        · rw [hgc]
          simp [ServerA.addG, ServerA.rolePoints, hcd, hcb]
        · exact hnd
        · exact hcMem
        · exact hcBabu
        · rw [hgd]
          simp [ServerA.addG, ServerA.rolePoints, hdb, hdc]
        · exact hnd
        · exact hdMem
        · exact hdBabu
        · rw [hgc]
          simp [ServerA.addG, ServerA.rolePoints, hcd, hcb]
        · exact hnd
        · exact hcMem
        · exact hcBabu
        · rw [hgd]
          simp [ServerA.addG, ServerA.rolePoints, hdb, hdc]
        · exact hnd
        · exact hdMem
        · exact hdBabu
      · rw [if_neg hpar, if_neg (by decide : ¬("Dakat" = "Chor"))]
        split
        all_goals
          refine ⟨_, rfl, ⟨_, by simp [List.mem_append]; exact Or.inr rfl⟩, ?_, ?_⟩
        all_goals
          rw [getP_applyGainsA_mem]
        · rw [hgc]
          simp [ServerA.addG, ServerA.rolePoints, hcd, hcb]
        · exact hnd
        · exact hcMem
        · exact hcBabu
        · rw [hgd]
          simp [ServerA.addG, ServerA.rolePoints, hdb, hdc]
        · exact hnd
        · exact hdMem
        · exact hdBabu
        · rw [hgc]
          simp [ServerA.addG, ServerA.rolePoints, hcd, hcb]
        · exact hnd
        · exact hcMem
        · exact hcBabu
        · rw [hgd]
          simp [ServerA.addG, ServerA.rolePoints, hdb, hdc]
        · exact hnd
        · exact hdMem
        · exact hdBabu
  obtain ⟨sr, hsr, hprops⟩ := key
  have hOG : ServerA.onGuess p { gid := some g, gname := none } s = sr := by
    have hguard : (!s.gameStarted || !s.awaitingShuffle) = false := by
      rw [hgs, haw]
      rfl
    simp only [ServerA.onGuess, hguard, Bool.false_eq_true, if_false, hp]
    rw [if_neg (fun hcon => hcon hpr)]
    simp only [hcont, if_true, hsr]
  exact ⟨hsus, hOG ▸ hprops.1, hOG ▸ hprops.2.1, hOG ▸ hprops.2.2⟩

/-- C10 witness: in round 1 of the script the police (player 2) guesses the
Babu (player 1), who is outside the suspects list; the round resolves as
incorrect, the Chor (player 3) gains 400 and the Dakat (player 4) gains
600. -/
theorem c10_guess_outside_suspects_resolves_round_witness :
    1 ∉ ServerA.suspects (ServerA.run scriptShuffledA) 2 ∧
    (∃ m, ServerA.Emit.roundResult (ServerA.run scriptShuffledA).currentRound false m
        ∈ (ServerA.onGuess 2 { gid := some 1, gname := none }
            (ServerA.run scriptShuffledA)).emitted) ∧
    getP (ServerA.onGuess 2 { gid := some 1, gname := none }
        (ServerA.run scriptShuffledA)).players 3
      = (getP (ServerA.run scriptShuffledA).players 3).map
          (fun q => { q with score := q.score + 400 }) ∧
    getP (ServerA.onGuess 2 { gid := some 1, gname := none }
        (ServerA.run scriptShuffledA)).players 4
      = (getP (ServerA.run scriptShuffledA).players 4).map
          (fun q => { q with score := q.score + 600 }) :=
  c10_guess_outside_suspects_resolves_round (ServerA.run scriptShuffledA) 2 1 3 4
    { name := "Bob", score := 0, role := "Police", pending := 800 }
    { name := "Alice", score := 900, role := "Babu", pending := 900 }
    (by decide) (by decide) (by decide) (by decide) (by decide) (by decide) (by decide)
    (by decide) (by decide) (by decide)

/-- C4 (amended): in `src/server/index.js`, when the police's guess is
incorrect the forfeited 500 points are transferred to the GUESSED player —
not to the holder of the designated target role — and the outcome message
reveals the guessed player's actual role (the true Chor is not named). -/
theorem c4_amended_transfer_to_guessed_player
    (s : ServerB.GState) (p g : Sid) (pp gp : ServerB.Player)
    (hgi : s.gameInProgress = true)
    (hp : getP s.players p = some pp) (hpr : pp.role = some "Police")
    (hgmem : g ∈ s.currentPlayers) (hgp : getP s.players g = some gp)
    (hgr : gp.role ≠ some "Chor") (hne : g ≠ p)
    (hrd : s.currentRound < ServerB.MAX_ROUNDS) :
    getP (ServerB.onGuess p g s).players g = some { gp with score := gp.score + 500 } ∧
    getP (ServerB.onGuess p g s).players p = some { pp with score := pp.score - 500 } ∧
    (ServerB.onGuess p g s).emitted
      = s.emitted ++ [ServerB.Emit.roundResult
          (ServerB.showOpt pp.name ++ " guessed incorrectly; " ++ ServerB.showOpt gp.name
            ++ " was the " ++ ServerB.showOpt gp.role ++ ".") false] := by
  have hroleP : ServerB.roleIs s.players p "Police" = true := by
    simp [ServerB.roleIs, hp, hpr]
  have hcont : s.currentPlayers.contains g = true := by
    simpa using hgmem
  have hcorr : (gp.role == some "Chor") = false := by
    simpa using hgr
  have hred : ServerB.onGuess p g s = ServerB.handleGuess p g s := by
    simp only [ServerB.onGuess, hgi, Bool.not_true, Bool.false_eq_true, if_false, hroleP,
      if_true, hcont]
  rw [hred]
  simp only [ServerB.handleGuess, hgp, hp, hcorr, Bool.false_eq_true, if_false,
    if_pos hrd]
  refine ⟨?_, ?_, by trivial⟩
  · rw [getP_setP_self, getP_setP_ne _ _ hne, hgp]
    simp [ServerB.ROLE_POINTS]
  · rw [getP_setP_ne _ _ (fun h => hne h.symm), getP_setP_self, hp]
    simp [ServerB.ROLE_POINTS]

/-- C4 amended witness: applied to the concrete first round of the script
(police Bob wrongly guesses Carol, the Dakat holder). -/
theorem c4_amended_transfer_to_guessed_player_witness :
    getP (ServerB.onGuess 2 3 (ServerB.run scriptJoinB)).players 3
      = some { name := some "Carol", score := (300 : Int) + 500, role := some "Dakat" } ∧
    getP (ServerB.onGuess 2 3 (ServerB.run scriptJoinB)).players 2
      = some { name := some "Bob", score := (500 : Int) - 500, role := some "Police" } ∧
    (ServerB.onGuess 2 3 (ServerB.run scriptJoinB)).emitted
      = (ServerB.run scriptJoinB).emitted ++ [ServerB.Emit.roundResult
          (ServerB.showOpt (some "Bob") ++ " guessed incorrectly; "
            ++ ServerB.showOpt (some "Carol") ++ " was the "
            ++ ServerB.showOpt (some "Dakat") ++ ".") false] :=
  c4_amended_transfer_to_guessed_player (ServerB.run scriptJoinB) 2 3
    { name := some "Bob", score := 500, role := some "Police" }
    { name := some "Carol", score := 300, role := some "Dakat" }
    (by decide) (by decide) (by decide) (by decide) (by decide) (by decide) (by decide)
    (by decide)

/-- C6 (amended): a mid-game disconnect resets the game in both variants, a
player-left notice is broadcast, and the disconnect transition emits no
round-result.  In `src/server.js` the remaining players are returned to the
waiting pool with score 0 and role cleared to the empty string; in
`src/server/index.js` the remaining players' roles are cleared to null but
their cumulative scores are retained. -/
theorem c6_amended_disconnect_reset
    (sA : ServerA.GState) (iA : Sid)
    (hndA : sA.currentPlayers.Nodup) (hwA : iA ∉ sA.waiting) (hmemA : iA ∈ sA.currentPlayers)
    (sB : ServerB.GState) (iB jB : Sid) (q : ServerB.Player)
    (hmemB : iB ∈ sB.currentPlayers) (hneB : jB ≠ iB)
    (hq : getP sB.players jB = some q) :
    ((ServerA.onDisconnect iA sA).gameStarted = false ∧
     (ServerA.onDisconnect iA sA).currentRound = 0 ∧
     (ServerA.onDisconnect iA sA).history = [] ∧
     (∀ j ∈ sA.currentPlayers, j ≠ iA →
        getP (ServerA.onDisconnect iA sA).players j
          = (getP sA.players j).map (fun r => { r with score := 0, role := "", pending := 0 }) ∧
        j ∈ (ServerA.onDisconnect iA sA).waiting) ∧
     (∃ m ns, (ServerA.onDisconnect iA sA).emitted
        = sA.emitted ++ [ServerA.Emit.playerLeft m, ServerA.Emit.updatePlayers ns])) ∧
    ((ServerB.onDisconnect iB sB).gameInProgress = false ∧
     getP (ServerB.onDisconnect iB sB).players jB = some { q with role := none } ∧
     ServerB.Emit.playerLeft ∈ (ServerB.onDisconnect iB sB).emitted) := by
  have hwc : sA.waiting.contains iA = false := by
    simpa using hwA
  have hcc : sA.currentPlayers.contains iA = true := by
    simpa using hmemA
  have hwasB : sB.currentPlayers.contains iB = true := by
    simpa using hmemB
  constructor
  · simp only [ServerA.onDisconnect, hwc, Bool.false_eq_true, if_false, hcc, if_true]
    refine ⟨by trivial, by trivial, by trivial, ?_, ⟨_, _, by trivial⟩⟩
    intro j hj hji
    have hjmem : j ∈ sA.currentPlayers.filter (fun k => !(k == iA)) := by
      rw [List.mem_filter]
      exact ⟨hj, by simp [hji]⟩
    have hjnd : (sA.currentPlayers.filter (fun k => !(k == iA))).Nodup :=
      hndA.filter _
    constructor
    · rw [getP_delP_ne _ hji, getP_resetLoopA_mem _ _ _ hjnd hjmem]
      rfl
    · exact List.mem_append_right _ hjmem
  · simp only [ServerB.onDisconnect, hwasB, if_true, ServerB.resetGame]
    refine ⟨by trivial, ?_, ?_⟩
    · rw [getP_mapP, getP_delP_ne _ hneB, hq]
      rfl
    · simp [List.mem_append]

/-- C6 amended witness: the reset theorem applied to the concrete mid-round
states of the scripts: player 4 disconnects from the round-1 game in each
variant (player 1 keeps score 1000 in the `src/server/index.js` variant). -/
theorem c6_amended_disconnect_reset_witness :
    ((ServerA.onDisconnect 4 (ServerA.run scriptShuffledA)).gameStarted = false ∧
     (ServerA.onDisconnect 4 (ServerA.run scriptShuffledA)).currentRound = 0 ∧
     (ServerA.onDisconnect 4 (ServerA.run scriptShuffledA)).history = [] ∧
     (∀ j ∈ (ServerA.run scriptShuffledA).currentPlayers, j ≠ 4 →
        getP (ServerA.onDisconnect 4 (ServerA.run scriptShuffledA)).players j
          = (getP (ServerA.run scriptShuffledA).players j).map
              (fun r => { r with score := 0, role := "", pending := 0 }) ∧
        j ∈ (ServerA.onDisconnect 4 (ServerA.run scriptShuffledA)).waiting) ∧
     (∃ m ns, (ServerA.onDisconnect 4 (ServerA.run scriptShuffledA)).emitted
        = (ServerA.run scriptShuffledA).emitted
            ++ [ServerA.Emit.playerLeft m, ServerA.Emit.updatePlayers ns])) ∧
    ((ServerB.onDisconnect 4 (ServerB.run scriptJoinB)).gameInProgress = false ∧
     getP (ServerB.onDisconnect 4 (ServerB.run scriptJoinB)).players 1
       = some { name := some "Alice", score := 1000, role := none } ∧
     ServerB.Emit.playerLeft ∈ (ServerB.onDisconnect 4 (ServerB.run scriptJoinB)).emitted) :=
  c6_amended_disconnect_reset (ServerA.run scriptShuffledA) 4 (by decide) (by decide)
    (by decide) (ServerB.run scriptJoinB) 4 1
    { name := some "Alice", score := 1000, role := some "Babu" }
    (by decide) (by decide) (by decide)

end ChorGame
